import Mathlib

/-!
Verification of the feta feature-targeting engine (crates/feta) against its
specification.  The Rust sources are shallowly embedded: u32 arithmetic is
modelled as Nat with explicit reduction modulo 2^32 where the source performs
u32 arithmetic, fallible operations return Except, and a Rust panic is
modelled as an Option none result.  The external mexl expression subsystem is
modelled through its two capabilities (compile and evaluate), a compiled
program being represented by its evaluation function.
-/

/-- 2^32, the modulus of u32 arithmetic. -/
def M32 : Nat := 4294967296

/-- The type of a feature value (src/crates/feta/src/value.rs, ValueType).
Constructor names are lowercased relative to the Rust source to avoid
shadowing the Lean built-in types. -/
inductive ValueType where
  | integer
  | float
  | boolean
  | string
deriving DecidableEq

/-- Display implementation for ValueType (value.rs). -/
def ValueType.display : ValueType → String
  | .integer => "integer"
  | .float => "float"
  | .boolean => "boolean"
  | .string => "string"

/-- The value of a feature variant (value.rs, Value).  The f64 payload of the
float case is represented by its raw 64-bit pattern; no claim performs float
arithmetic, only tag inspection and structural equality. -/
inductive Value where
  | null
  | integer (n : Int)
  | float (bits : Nat)
  | boolean (b : Bool)
  | string (s : String)
deriving DecidableEq

/-- Value::has_type (value.rs): exact tag match, no coercion. -/
def Value.has_type : Value → ValueType → Bool
  | .integer _, .integer => true
  | .float _, .float => true
  | .boolean _, .boolean => true
  | .string _, .string => true
  | _, _ => false

/-- The error type FetaError (error.rs). -/
inductive FetaError where
  | Configuration (msg : String)
  | Request (msg : String)
  | Targeting (msg : String)
deriving DecidableEq

/-- Modelled from the spec: the value type of the external mexl expression
language (spec section 6 treats the expression subsystem as an external
capability).  Only equality with the boolean true value is ever inspected. -/
inductive MexlValue where
  | bool (b : Bool)
  | int (n : Int)
  | str (s : String)
  | null
deriving DecidableEq

/-- Modelled from the spec: the mexl evaluation environment, an attribute
name-to-value mapping populated from the Context. -/
def Environment : Type := List (String × MexlValue)

/-- Modelled from the spec: Environment::set inserts or overwrites a key. -/
def Environment.set (env : Environment) (k : String) (v : MexlValue) : Environment :=
  (k, v) :: env.filter (fun kv => kv.1 != k)

/-- Modelled from the spec: a compiled mexl program, represented by its
evaluation function evaluate(Program, Environment) -> Value | RuntimeError. -/
def Program : Type := Environment → Except String MexlValue

/-- Modelled from the spec: the external capability
compile(expression) -> Program | CompileError. -/
def Compile : Type := String → Except String Program

/-- A concrete compile function used to instantiate theorems; rules with no
audience clause never invoke it. -/
def dummyCompile : Compile := fun _ => .error "unsupported"

/-- The reason for a feature decision (decision.rs, Reason).  Rust's Match
constructor is named matched because match is a Lean keyword. -/
inductive Reason where
  | unknown
  | disabled
  | static
  | split
  | matched
  | matchSplit
  | error
deriving DecidableEq

/-- Bucket configuration of a rule (rule.rs, Bucket): the half-open interval
[lower_bound, upper_bound) of hash-mod-100 values mapped to a variant. -/
structure Bucket where
  variant : String
  lower_bound : Nat
  upper_bound : Nat
deriving DecidableEq

/-- A targeting rule (rule.rs, Rule). -/
structure Rule where
  buckets : List Bucket
  program : Option Program
  audience : Option String
  reason : Reason

/-- Builder state of RuleBuilder (rule.rs): percentages are the (variant, u8)
pairs added via RuleBuilder::variant, in insertion order. -/
structure RuleBuilder where
  percentages : List (String × Nat)
  audience : Option (String × String)
  is_default : Bool

/-- RuleBuilder::new (rule.rs). -/
def RuleBuilder.new : RuleBuilder :=
  { percentages := [], audience := none, is_default := false }

/-- The bucket list built by RuleBuilder::build (rule.rs lines 44-58): each
pair is assigned the half-open interval starting at the running bound, whose
upper bound is the u32 sum bound + p. -/
def mkBuckets : List (String × Nat) → Nat → List Bucket
  | [], _ => []
  | (k, p) :: rest, bound =>
    let ub := (bound + p) % M32
    { variant := k, lower_bound := bound, upper_bound := ub } :: mkBuckets rest ub

/-- The final running bound after processing all pairs (u32 arithmetic). -/
def finalBound : List (String × Nat) → Nat → Nat
  | [], bound => bound
  | (_, p) :: rest, bound => finalBound rest ((bound + p) % M32)

/-- The reason classification by bucket count (rule.rs lines 66-70); the zero
case is the source's unreachable branch, reached only behind the emptiness
check. -/
def reasonOf : Nat → Reason
  | 0 => .unknown
  | 1 => .static
  | _ => .split

/-- The reason promotion applied when an audience is present
(rule.rs lines 84-88). -/
def promote : Reason → Reason
  | .static => .matched
  | .split => .matchSplit
  | r => r

/-- RuleBuilder::build (rule.rs lines 43-97). -/
def RuleBuilder.build (compile : Compile) (rb : RuleBuilder) : Except FetaError Rule :=
  let buckets := mkBuckets rb.percentages 0
  let bound := finalBound rb.percentages 0
  if buckets.isEmpty || bound != 100 then
    .error (.Configuration "invalid variant configuration")
  else
    let reason : Reason := reasonOf buckets.length
    match rb.audience with
    | none =>
      .ok { buckets := buckets, program := none, audience := none, reason := reason }
    | some (aud, expr) =>
      if rb.is_default then
        .error (.Configuration "audience not permitted for default rule")
      else
        match compile expr with
        | .error e => .error (.Targeting e)
        | .ok p =>
          .ok { buckets := buckets, program := some p, audience := some aud,
                reason := promote reason }

/-- Rule::is_applicable (rule.rs lines 119-127). -/
def Rule.is_applicable (r : Rule) (env : Environment) : Except FetaError Bool :=
  match r.program with
  | some p =>
    match p env with
    | .error e => .error (.Targeting e)
    | .ok result => .ok (result == MexlValue.bool true)
  | none => .ok true

/-- The bucket-containment test of Rule::get_variant:
hash_mod >= b.lower_bound && hash_mod < b.upper_bound. -/
def inBucket (m : Nat) (b : Bucket) : Bool :=
  decide (b.lower_bound ≤ m) && decide (m < b.upper_bound)

/-- Rule::get_variant (rule.rs lines 130-138).  The source panics when no
bucket contains hash mod 100; the panic is modelled as none. -/
def Rule.get_variant (r : Rule) (hash : Nat) : Option String :=
  let hash_mod := hash % 100
  (r.buckets.find? (inBucket hash_mod)).map (fun b => b.variant)

/-- Sum of the percentage components of a pair list (plain Nat sum, no wrap). -/
def sumPct : List (String × Nat) → Nat
  | [] => 0
  | (_, p) :: rest => p + sumPct rest

/-- UTF-8 encoding of a single character, as byte values. -/
def utf8Char (c : Char) : List Nat :=
  let n := c.toNat
  if n < 128 then [n]
  else if n < 2048 then [192 + n / 64, 128 + n % 64]
  else if n < 65536 then [224 + n / 4096, 128 + n / 64 % 64, 128 + n % 64]
  else [240 + n / 262144, 128 + n / 4096 % 64, 128 + n / 64 % 64, 128 + n % 64]

/-- The UTF-8 byte sequence of a string, matching Rust str::as_bytes. -/
def utf8Bytes (s : String) : List Nat :=
  s.data.flatMap utf8Char

/-- 32-bit left rotation on a u32 value represented as a Nat below 2^32. -/
def rotl32 (x r : Nat) : Nat :=
  ((x <<< r) % M32) ||| (x >>> (32 - r))

/-- Modelled from the spec: the per-block k mixing of the external murmur3
crate's 32-bit MurmurHash3 (k * c1, rotate left 15, * c2, all u32). -/
def murmurK (k : Nat) : Nat :=
  (rotl32 ((k * 0xcc9e2d51) % M32) 15 * 0x1b873593) % M32

/-- Modelled from the spec: the body loop of MurmurHash3 x86 32-bit over the
byte stream - full 4-byte little-endian blocks mixed into the state, then a
final partial block (1 to 3 bytes) mixed without the rotate-multiply step. -/
def murmurBody (h : Nat) : List Nat → Nat
  | b0 :: b1 :: b2 :: b3 :: rest =>
    let k := b0 ||| (b1 <<< 8) ||| (b2 <<< 16) ||| (b3 <<< 24)
    let h := h ^^^ murmurK k
    let h := rotl32 h 13
    murmurBody ((h * 5 + 0xe6546b64) % M32) rest
  | [] => h
  | [b0] => h ^^^ murmurK b0
  | [b0, b1] => h ^^^ murmurK (b0 ||| (b1 <<< 8))
  | [b0, b1, b2] => h ^^^ murmurK (b0 ||| (b1 <<< 8) ||| (b2 <<< 16))

/-- Modelled from the spec: the finalization mix of MurmurHash3 32-bit. -/
def fmix32 (h : Nat) : Nat :=
  let h := h ^^^ (h >>> 16)
  let h := (h * 0x85ebca6b) % M32
  let h := h ^^^ (h >>> 13)
  let h := (h * 0xc2b2ae35) % M32
  h ^^^ (h >>> 16)

/-- Modelled from the spec: the 32-bit Murmur3 hash of a byte sequence with
the given seed, as provided by the external murmur3 crate used by hash.rs. -/
def murmur3_32 (bytes : List Nat) (seed : Nat) : Nat :=
  fmix32 (murmurBody seed bytes ^^^ (bytes.length % M32))

/-- hash::calculate (hash.rs lines 4-11): concatenate the feature name and
user key with no separator and hash the bytes with Murmur3, seed 0. -/
def calculate (feature user_key : String) : Nat :=
  let key := feature ++ user_key
  murmur3_32 (utf8Bytes key) 0

/-- The evaluation context (context.rs, Context).  Attribute maps are
represented as association lists with distinct keys. -/
structure Context where
  user_key : String
  attributes : Option (List (String × MexlValue))

/-- Context::new (context.rs). -/
def Context.new (user_key : String) : Context :=
  { user_key := user_key, attributes := none }

/-- The result of a feature evaluation (decision.rs, Decision). -/
structure Decision where
  hash : Nat
  variant : String
  reason : Reason
  value : Value
  audience : Option String
  error : Option FetaError
deriving DecidableEq

/-- Builder state of DecisionBuilder (decision.rs). -/
structure DecisionBuilder where
  hash : Nat
  variant : Option String
  reason : Reason
  value : Value
  audience : Option String
  error : Option FetaError

/-- DecisionBuilder::new (decision.rs). -/
def DecisionBuilder.new : DecisionBuilder :=
  { hash := 0, variant := none, reason := .unknown, value := .null,
    audience := none, error := none }

/-- DecisionBuilder::build (decision.rs lines 113-122): a missing variant
defaults to the empty string. -/
def DecisionBuilder.out (b : DecisionBuilder) : Decision :=
  { hash := b.hash, variant := b.variant.getD "", reason := b.reason,
    value := b.value, audience := b.audience, error := b.error }

/-- DecisionBuilder::disabled (decision.rs). -/
def DecisionBuilder.disabled (b : DecisionBuilder) : Decision :=
  { b with reason := .disabled }.out

/-- DecisionBuilder::success (decision.rs). -/
def DecisionBuilder.success (b : DecisionBuilder) (reason : Reason) : Decision :=
  { b with reason := reason }.out

/-- DecisionBuilder::error (decision.rs); named errorOut because error is
already the field name. -/
def DecisionBuilder.errorOut (b : DecisionBuilder) (e : FetaError) : Decision :=
  { b with reason := .error, error := some e }.out

/-- Association-list lookup for the variant map (HashMap::get in the source:
maps have distinct keys, so first match is the map entry). -/
def lookupKey {α : Type} : List (String × α) → String → Option α
  | [], _ => none
  | (k, v) :: rest, key => if k = key then some v else lookupKey rest key

/-- A feature (feature.rs, Feature). -/
structure Feature where
  name : String
  enabled : Bool
  variants : List (String × Value)
  default_variant : String
  default_value : Value
  rules : List Rule

/-- Builder state of FeatureBuilder (feature.rs). -/
structure FeatureBuilder where
  name : Option String
  enabled : Bool
  value_type : ValueType
  variants : List (String × Value)
  default_variant : Option String
  rules : List Rule
  default_rule : Option Rule

/-- First undefined variant referenced by a bucket list, if any
(feature.rs lines 113-122, inner loop over referenced_variants). -/
def undefinedInBuckets (vars : List (String × Value)) : List Bucket → Option String
  | [] => none
  | b :: rest =>
    if (lookupKey vars b.variant).isSome then undefinedInBuckets vars rest
    else some b.variant

/-- First undefined variant referenced by any rule, if any
(feature.rs lines 113-122, outer loop). -/
def undefinedIn (vars : List (String × Value)) : List Rule → Option String
  | [] => none
  | r :: rest =>
    match undefinedInBuckets vars r.buckets with
    | some v => some v
    | none => undefinedIn vars rest

/-- FeatureBuilder::build (feature.rs lines 78-134). -/
def FeatureBuilder.build (fb : FeatureBuilder) : Except FetaError Feature :=
  if fb.variants.all (fun kv => kv.2.has_type fb.value_type) then
    match fb.default_variant with
    | none => .error (.Configuration "default variant is required")
    | some dv =>
      match lookupKey fb.variants dv with
      | none => .error (.Configuration ("default variant does not exist: " ++ dv))
      | some dval =>
        match fb.default_rule with
        | none => .error (.Configuration "default rule is required")
        | some dr =>
          if dr.program.isSome then
            .error (.Configuration "default rule must not have an expression")
          else
            let rules := fb.rules ++ [dr]
            match undefinedIn fb.variants rules with
            | some v => .error (.Configuration ("rule uses undefined variant: " ++ v))
            | none =>
              match fb.name with
              | none => .error (.Configuration "feature name is required")
              | some nm =>
                .ok { name := nm, enabled := fb.enabled, variants := fb.variants,
                      default_variant := dv, default_value := dval, rules := rules }
  else
    .error (.Configuration ("all variants must have type: " ++ fb.value_type.display))

/-- The evaluation environment built from the context attributes
(feature.rs lines 212-217). -/
def envOf (ctx : Context) : Environment :=
  (ctx.attributes.getD []).foldl (fun e kv => e.set kv.1 kv.2) []

/-- Feature::variant_value (feature.rs lines 244-252). -/
def Feature.variant_value (f : Feature) (variant : String) : Except FetaError Value :=
  match lookupKey f.variants variant with
  | some value => .ok value
  | none => .error (.Configuration ("variant not defined: " ++ variant))

/-- The rule loop of Feature::decide (feature.rs lines 219-240); none models
the panic inside Rule::get_variant, the empty-list case is the defensive
"no applicable rules defined" fall-through. -/
def decideRules (f : Feature) (env : Environment) (hash : Nat)
    (b : DecisionBuilder) : List Rule → Option Decision
  | [] => some (b.errorOut (.Configuration "no applicable rules defined"))
  | r :: rest =>
    match r.is_applicable env with
    | .error e => some (b.errorOut e)
    | .ok false => decideRules f env hash b rest
    | .ok true =>
      match r.get_variant hash with
      | none => none
      | some variant =>
        let b :=
          match r.audience with
          | some a => { b with audience := some a }
          | none => b
        match f.variant_value variant with
        | .ok v => some ({ b with variant := some variant, value := v }.success r.reason)
        | .error e => some (b.errorOut e)

/-- Feature::decide (feature.rs lines 200-241). -/
def Feature.decide (f : Feature) (ctx : Context) : Option Decision :=
  let b := { DecisionBuilder.new with
             variant := some f.default_variant, value := f.default_value }
  let hash := calculate f.name ctx.user_key
  let b := { b with hash := hash }
  if !f.enabled then
    some b.disabled
  else
    decideRules f (envOf ctx) hash b f.rules

/-- The feature registry (features.rs, Features). -/
structure Features where
  features : List (String × Feature)

/-- Features::decide (features.rs lines 30-37). -/
def Features.decide (fs : Features) (feature : String) (ctx : Context) :
    Option Decision :=
  match lookupKey fs.features feature with
  | some f => f.decide ctx
  | none =>
    some ({ DecisionBuilder.new with
            hash := calculate feature ctx.user_key }.errorOut
          (.Request ("invalid feature: " ++ feature)))

/-- A bucket list is chained from a starting bound: each bucket's lower bound
is the previous bucket's upper bound, starting at b. -/
def chainedFrom (b : Nat) : List Bucket → Bool
  | [] => true
  | bk :: rest => (bk.lower_bound == b) && chainedFrom bk.upper_bound rest

/-- The bound at which a chained bucket list ends (the last upper bound, or
the start bound for an empty list). -/
def endBound (b : Nat) : List Bucket → Nat
  | [] => b
  | bk :: rest => endBound bk.upper_bound rest

/-- The bucket list realises the pair list from offset s: in input order each
bucket carries its pair's variant, starts at the running sum and has width
equal to its pair's percentage. -/
def bucketsMatch : List (String × Nat) → List Bucket → Nat → Prop
  | [], [], _ => True
  | (k, p) :: ps, b :: bs, s =>
    b.variant = k ∧ b.lower_bound = s ∧ b.upper_bound = s + p ∧ bucketsMatch ps bs (s + p)
  | _, _, _ => False

/-- A rule value producible by RuleBuilder::build, the only public
constructor of Rule. -/
def RuleBuilt (r : Rule) : Prop :=
  ∃ c rb, RuleBuilder.build c rb = .ok r

/-- The conjunction of the validation checks of FeatureBuilder::build, in the
order the source performs them. -/
def featureOk (fb : FeatureBuilder) : Bool :=
  if fb.variants.all (fun kv => kv.2.has_type fb.value_type) then
    match fb.default_variant with
    | none => false
    | some dv =>
      match lookupKey fb.variants dv with
      | none => false
      | some _ =>
        match fb.default_rule with
        | none => false
        | some dr =>
          if dr.program.isSome then false
          else
            match undefinedIn fb.variants (fb.rules ++ [dr]) with
            | some _ => false
            | none => fb.name.isSome
  else false

/-- The pair list of the C1 counterexample: 33554432 pairs of 128 percent
followed by one pair of 100 percent; the u8 percentages sum to 2^32 + 100,
which wraps to 100 in u32 arithmetic. -/
def cexPs : List (String × Nat) :=
  List.replicate 33554432 ("a", 128) ++ [("a", 100)]

/-- The rule builder of the C1 counterexample. -/
def cexRB : RuleBuilder :=
  { percentages := cexPs, audience := none, is_default := false }

/-- Builder for the 50/50 rule of the spec's bucketing regression test. -/
def rbAB : RuleBuilder :=
  { percentages := [("a", 50), ("b", 50)], audience := none, is_default := false }

/-- Builder for a single 100 percent bucket on variant a. -/
def rbA : RuleBuilder :=
  { percentages := [("a", 100)], audience := none, is_default := false }

/-- The rule built from rbA. -/
def ruleA : Rule :=
  { buckets := [{ variant := "a", lower_bound := 0, upper_bound := 100 }],
    program := none, audience := none, reason := .static }

/-- Builder with a zero-percentage variant, for the C10 witness. -/
def rbZ : RuleBuilder :=
  { percentages := [("a", 0), ("b", 100)], audience := none, is_default := false }

/-- A program that always evaluates to the non-boolean value 1. -/
def progOne : Program := fun _ => .ok (.int 1)

/-- A program that always fails at runtime. -/
def progBoom : Program := fun _ => .error "boom"

/-- A rule carrying progOne, for the C5 witness. -/
def ruleP : Rule :=
  { buckets := [{ variant := "a", lower_bound := 0, upper_bound := 100 }],
    program := some progOne, audience := some "aud", reason := .matched }

/-- A rule carrying progBoom, for the C8 witness. -/
def ruleBoom : Rule :=
  { buckets := [{ variant := "a", lower_bound := 0, upper_bound := 100 }],
    program := some progBoom, audience := some "aud", reason := .matched }

/-- A valid feature builder: one boolean variant a, default rule rbA. -/
def fbGood : FeatureBuilder :=
  { name := some "f", enabled := true, value_type := .boolean,
    variants := [("a", .boolean true)], default_variant := some "a",
    rules := [], default_rule := some ruleA }

/-- The feature built from fbGood. -/
def featGood : Feature :=
  { name := "f", enabled := true, variants := [("a", .boolean true)],
    default_variant := "a", default_value := .boolean true, rules := [ruleA] }

/-- A disabled feature, for the C7 witness. -/
def featDis : Feature :=
  { name := "f", enabled := false, variants := [("a", .boolean true)],
    default_variant := "a", default_value := .boolean true, rules := [ruleA] }

/-- An enabled feature whose single rule fails at evaluation time, for the
C8 witness. -/
def featBoom : Feature :=
  { name := "f", enabled := true, variants := [("a", .boolean true)],
    default_variant := "a", default_value := .boolean true, rules := [ruleBoom] }

/-- The empty feature registry. -/
def emptyFeatures : Features := { features := [] }

/-- Builder for a 60/40 rule, used to instantiate the C1 theorem. -/
def rbW : RuleBuilder :=
  { percentages := [("a", 60), ("b", 40)], audience := none, is_default := false }

/-- The rule built from rbW. -/
def ruleW : Rule :=
  { buckets := [{ variant := "a", lower_bound := 0, upper_bound := 60 },
                { variant := "b", lower_bound := 60, upper_bound := 100 }],
    program := none, audience := none, reason := .split }

/-- The rule built from rbAB (the spec's 50/50 bucketing regression rule). -/
def ruleAB : Rule :=
  { buckets := [{ variant := "a", lower_bound := 0, upper_bound := 50 },
                { variant := "b", lower_bound := 50, upper_bound := 100 }],
    program := none, audience := none, reason := .split }

/-- The rule built from rbZ: variant a holds the empty bucket 0 to 0. -/
def ruleZ : Rule :=
  { buckets := [{ variant := "a", lower_bound := 0, upper_bound := 0 },
                { variant := "b", lower_bound := 0, upper_bound := 100 }],
    program := none, audience := none, reason := .split }

theorem mkBuckets_length (ps : List (String × Nat)) (b : Nat) :
    (mkBuckets ps b).length = ps.length := by
  induction ps generalizing b with
  | nil => rfl
  | cons hd tl ih => cases hd with | mk k p => simp [mkBuckets, ih]

theorem chainedFrom_mkBuckets (ps : List (String × Nat)) (b : Nat) :
    chainedFrom b (mkBuckets ps b) = true := by
  induction ps generalizing b with
  | nil => rfl
  | cons hd tl ih => cases hd with | mk k p => simp [mkBuckets, chainedFrom, ih]

theorem endBound_mkBuckets (ps : List (String × Nat)) (b : Nat) :
    endBound b (mkBuckets ps b) = finalBound ps b := by
  induction ps generalizing b with
  | nil => rfl
  | cons hd tl ih => cases hd with | mk k p => simp [mkBuckets, endBound, finalBound, ih]

theorem find?_of_chained (bs : List Bucket) (b0 m : Nat)
    (hc : chainedFrom b0 bs = true) (hlo : b0 ≤ m) (hhi : m < endBound b0 bs) :
    ∃ bk, bs.find? (inBucket m) = some bk := by
  induction bs generalizing b0 with
  | nil => simp only [endBound] at hhi; omega
  | cons bk rest ih =>
    simp only [chainedFrom, Bool.and_eq_true, beq_iff_eq] at hc
    obtain ⟨hlb, hch⟩ := hc
    by_cases hub : m < bk.upper_bound
    · exact ⟨bk, List.find?_cons_of_pos _ (by simp [inBucket]; omega)⟩
    · obtain ⟨bk', h'⟩ := ih bk.upper_bound hch (by omega)
        (by simpa only [endBound] using hhi)
      exact ⟨bk', by rw [List.find?_cons_of_neg _ (by simp [inBucket]; omega)]; exact h'⟩

theorem reasonOf_ne_unknown (n : Nat) (hn : n ≠ 0) : reasonOf n ≠ .unknown := by
  match n with
  | 0 => exact absurd rfl hn
  | 1 => decide
  | Nat.succ (Nat.succ m) => simp [reasonOf]

theorem promote_ne_unknown (r : Reason) (h : r ≠ .unknown) : promote r ≠ .unknown := by
  cases r <;> first | exact absurd rfl h | decide

theorem ruleBuild_ok {c : Compile} {rb : RuleBuilder} {r : Rule}
    (h : RuleBuilder.build c rb = .ok r) :
    r.buckets = mkBuckets rb.percentages 0 ∧
    rb.percentages ≠ [] ∧
    finalBound rb.percentages 0 = 100 ∧
    r.reason ≠ .unknown := by
  simp only [RuleBuilder.build] at h
  split at h
  · exact absurd h (by simp)
  · rename_i hcond
    simp only [Bool.or_eq_true, List.isEmpty_iff, bne_iff_ne, ne_eq, not_or,
      not_not] at hcond
    obtain ⟨hne, hbound⟩ := hcond
    have hps : rb.percentages ≠ [] := by
      intro he
      rw [he] at hne
      exact hne rfl
    have hlen : (mkBuckets rb.percentages 0).length ≠ 0 := by
      intro hz
      exact hne (List.length_eq_zero.mp hz)
    split at h
    · rw [Except.ok.injEq] at h
      refine ⟨by rw [← h], hps, hbound, ?_⟩
      rw [← h]
      exact reasonOf_ne_unknown _ hlen
    · split at h
      · exact absurd h (by simp)
      · split at h
        · exact absurd h (by simp)
        · rw [Except.ok.injEq] at h
          refine ⟨by rw [← h], hps, hbound, ?_⟩
          rw [← h]
          exact promote_ne_unknown _ (reasonOf_ne_unknown _ hlen)

theorem sumPct_append (xs ys : List (String × Nat)) :
    sumPct (xs ++ ys) = sumPct xs + sumPct ys := by
  induction xs with
  | nil => simp [sumPct]
  | cons hd tl ih => cases hd; simp [sumPct, ih]; omega

theorem sumPct_replicate (n : Nat) (a : String) (p : Nat) :
    sumPct (List.replicate n (a, p)) = n * p := by
  induction n with
  | zero => simp [sumPct]
  | succ m ih => rw [List.replicate_succ]; simp [sumPct, ih]; ring

theorem finalBound_append (xs ys : List (String × Nat)) (b : Nat) :
    finalBound (xs ++ ys) b = finalBound ys (finalBound xs b) := by
  induction xs generalizing b with
  | nil => rfl
  | cons hd tl ih => cases hd; simp [finalBound, ih]

theorem finalBound_replicate (n : Nat) (a : String) (p b : Nat) (hb : b < M32) :
    finalBound (List.replicate n (a, p)) b = (b + n * p) % M32 := by
  induction n generalizing b with
  | zero => simp [finalBound, Nat.mod_eq_of_lt hb]
  | succ m ih =>
    rw [List.replicate_succ]
    simp only [finalBound]
    rw [ih ((b + p) % M32) (Nat.mod_lt _ (by decide)), Nat.mod_add_mod]
    congr 1
    ring

theorem mkBuckets_nowrap (ps : List (String × Nat)) (s : Nat)
    (h : s + sumPct ps < M32) : bucketsMatch ps (mkBuckets ps s) s := by
  induction ps generalizing s with
  | nil => simp [mkBuckets, bucketsMatch]
  | cons hd tl ih =>
    cases hd with | mk k p =>
    simp only [sumPct] at h
    have hsp : (s + p) % M32 = s + p := Nat.mod_eq_of_lt (by omega)
    simp only [mkBuckets]
    rw [hsp]
    exact ⟨rfl, rfl, rfl, ih (s + p) (by omega)⟩

theorem bucketsMatch_lb (ps : List (String × Nat)) (bs : List Bucket) (s : Nat)
    (h : bucketsMatch ps bs s) :
    ∀ b ∈ bs, s ≤ b.lower_bound ∧ b.lower_bound ≤ b.upper_bound := by
  induction ps generalizing bs s with
  | nil =>
    cases bs with
    | nil => intro b hb; simp at hb
    | cons x xs => exact absurd h (by simp [bucketsMatch])
  | cons hd tl ih =>
    cases hd with | mk k p =>
    cases bs with
    | nil => exact absurd h (by simp [bucketsMatch])
    | cons b bs' =>
      obtain ⟨hv, hl, hu, hrest⟩ := h
      intro x hx
      rcases List.mem_cons.mp hx with rfl | hx'
      · omega
      · have := ih bs' (s + p) hrest x hx'
        omega

theorem bucketsMatch_pairwise (ps : List (String × Nat)) (bs : List Bucket) (s : Nat)
    (h : bucketsMatch ps bs s) :
    List.Pairwise (fun b1 b2 => b1.upper_bound ≤ b2.lower_bound) bs := by
  induction ps generalizing bs s with
  | nil =>
    cases bs with
    | nil => exact List.Pairwise.nil
    | cons x xs => exact absurd h (by simp [bucketsMatch])
  | cons hd tl ih =>
    cases hd with | mk k p =>
    cases bs with
    | nil => exact List.Pairwise.nil
    | cons b bs' =>
      obtain ⟨hv, hl, hu, hrest⟩ := h
      refine List.Pairwise.cons ?_ (ih bs' (s + p) hrest)
      intro x hx
      have := bucketsMatch_lb tl bs' (s + p) hrest x hx
      omega

theorem endBound_getLast (bs : List Bucket) (s : Nat) (bk : Bucket)
    (h : bs.getLast? = some bk) : endBound s bs = bk.upper_bound := by
  induction bs generalizing s with
  | nil => simp at h
  | cons b rest ih =>
    cases rest with
    | nil =>
      simp only [List.getLast?_singleton, Option.some.injEq] at h
      subst h
      rfl
    | cons b2 rest2 =>
      rw [List.getLast?_cons_cons] at h
      exact ih b.upper_bound h

/-- C1 (amended): RuleBuilder::build fails with the Configuration error
"invalid variant configuration" iff the pair list is empty or the
percentages' sum reduced modulo 2^32 (u32 wrap-around) is not 100; whenever
build succeeds and the percentages' true sum is 100, the buckets are, in
input order, contiguous half-open intervals starting at 0, non-overlapping,
each of width equal to its pair's percentage, with the final upper bound
exactly 100. -/
theorem c1_rule_build_valid (c : Compile) (rb : RuleBuilder) :
    (RuleBuilder.build c rb = .error (.Configuration "invalid variant configuration")
      ↔ rb.percentages = [] ∨ finalBound rb.percentages 0 ≠ 100)
  ∧ (∀ r, RuleBuilder.build c rb = .ok r → sumPct rb.percentages = 100 →
      bucketsMatch rb.percentages r.buckets 0
      ∧ List.Pairwise (fun b1 b2 => b1.upper_bound ≤ b2.lower_bound) r.buckets
      ∧ ∀ bk, r.buckets.getLast? = some bk → bk.upper_bound = 100) := by
  constructor
  · constructor
    · intro h
      simp only [RuleBuilder.build] at h
      split at h
      · rename_i hcond
        simp only [Bool.or_eq_true, List.isEmpty_iff, bne_iff_ne, ne_eq] at hcond
        rcases hcond with hc | hc
        · left
          have hl := mkBuckets_length rb.percentages 0
          rw [hc] at hl
          exact List.length_eq_zero.mp hl.symm
        · exact Or.inr hc
      · exfalso
        split at h
        · simp at h
        · split at h
          · simp only [Except.error.injEq, FetaError.Configuration.injEq] at h
            exact absurd h (by decide)
          · split at h
            · simp only [Except.error.injEq] at h
              exact FetaError.noConfusion h
            · simp at h
    · intro h
      have hcond : ((mkBuckets rb.percentages 0).isEmpty
          || (finalBound rb.percentages 0 != 100)) = true := by
        rcases h with hc | hc
        · rw [hc]
          simp [mkBuckets, List.isEmpty]
        · simp [bne_iff_ne, hc]
      simp only [RuleBuilder.build, hcond]
      rfl
  · intro r hok hsum
    obtain ⟨hb, hne, hbound, _⟩ := ruleBuild_ok hok
    have hm := mkBuckets_nowrap rb.percentages 0 (by rw [Nat.zero_add, hsum]; decide)
    rw [hb]
    refine ⟨hm, bucketsMatch_pairwise _ _ _ hm, ?_⟩
    intro bk hlast
    have h1 := endBound_getLast _ 0 _ hlast
    rw [endBound_mkBuckets, hbound] at h1
    exact h1.symm

/-- C1 counterexample: a pair list of 33554433 u8 percentages whose true sum
is 2^32 + 100 (not 100); the u32 running bound wraps to exactly 100, so
RuleBuilder::build succeeds instead of failing with the Configuration
error, falsifying the claimed equivalence. -/
theorem c1_counterexample :
    RuleBuilder.build dummyCompile cexRB
        ≠ .error (.Configuration "invalid variant configuration")
    ∧ cexRB.percentages ≠ []
    ∧ sumPct cexRB.percentages ≠ 100 := by
  have hlen : cexPs ≠ [] := by
    intro he
    have hl : cexPs.length = 0 := by rw [he]; rfl
    rw [cexPs, List.length_append, List.length_replicate] at hl
    norm_num at hl
  have hsum : sumPct cexPs = 4294967396 := by
    rw [cexPs, sumPct_append, sumPct_replicate]
    norm_num [sumPct]
  have hfb : finalBound cexPs 0 = 100 := by
    rw [cexPs, finalBound_append, finalBound_replicate _ _ _ _ (by decide)]
    norm_num [finalBound, M32]
  have hmkne : mkBuckets cexPs 0 ≠ [] := by
    intro he
    have hl := mkBuckets_length cexPs 0
    rw [he] at hl
    exact hlen (List.length_eq_zero.mp hl.symm)
  have hcond : ((mkBuckets cexPs 0).isEmpty || (finalBound cexPs 0 != 100)) = false := by
    rw [hfb]
    cases hmk : mkBuckets cexPs 0 with
    | nil => exact absurd hmk hmkne
    | cons a l => simp [List.isEmpty]
  refine ⟨?_, hlen, by show sumPct cexPs ≠ 100; rw [hsum]; decide⟩
  intro h
  simp only [RuleBuilder.build, cexRB] at h
  rw [hcond] at h
  simp at h

/-- Witness for C1: the amended theorem instantiated on the 60/40 rule. -/
theorem c1_witness :
    (RuleBuilder.build dummyCompile rbW
        = .error (.Configuration "invalid variant configuration")
      ↔ rbW.percentages = [] ∨ finalBound rbW.percentages 0 ≠ 100)
    ∧ (bucketsMatch rbW.percentages ruleW.buckets 0
      ∧ List.Pairwise (fun b1 b2 => b1.upper_bound ≤ b2.lower_bound) ruleW.buckets
      ∧ ∀ bk, ruleW.buckets.getLast? = some bk → bk.upper_bound = 100) :=
  ⟨(c1_rule_build_valid dummyCompile rbW).1,
   (c1_rule_build_valid dummyCompile rbW).2 ruleW rfl rfl⟩

theorem mkBuckets_mem (ps : List (String × Nat)) (b : Nat) (hb : b < M32) :
    ∀ bk ∈ mkBuckets ps b, bk.lower_bound < M32 ∧
      ∃ pr ∈ ps, pr.1 = bk.variant
        ∧ bk.upper_bound = (bk.lower_bound + pr.2) % M32 := by
  induction ps generalizing b with
  | nil => intro bk hbk; simp [mkBuckets] at hbk
  | cons hd tl ih =>
    cases hd with | mk k p =>
    intro bk hbk
    simp only [mkBuckets, List.mem_cons] at hbk
    rcases hbk with rfl | hbk
    · exact ⟨hb, ⟨(k, p), List.mem_cons_self _ _, rfl, rfl⟩⟩
    · obtain ⟨h1, pr, hmem, h2, h3⟩ := ih ((b + p) % M32) (Nat.mod_lt _ (by decide)) bk hbk
      exact ⟨h1, pr, List.mem_cons_of_mem _ hmem, h2, h3⟩

/-- C2: for every successfully built rule and every hash, some bucket's
half-open interval contains hash mod 100 and get_variant returns that
bucket's variant (never a panic); concretely, on the 50/50 rule hashes 0-49
map to a, 50-99 map to b, and hash 100 behaves as hash 0. -/
theorem c2_get_variant_total (c : Compile) (rb : RuleBuilder) (r : Rule)
    (hok : RuleBuilder.build c rb = .ok r) (hash : Nat) :
    (∃ bk, bk ∈ r.buckets ∧ bk.lower_bound ≤ hash % 100 ∧ hash % 100 < bk.upper_bound
        ∧ r.get_variant hash = some bk.variant)
  ∧ (RuleBuilder.build dummyCompile rbAB = .ok ruleAB
      ∧ (∀ h2, h2 < 50 → ruleAB.get_variant h2 = some "a")
      ∧ (∀ h2, h2 < 100 → 50 ≤ h2 → ruleAB.get_variant h2 = some "b")
      ∧ ruleAB.get_variant 100 = ruleAB.get_variant 0
      ∧ ruleAB.get_variant 100 = some "a") := by
  constructor
  · obtain ⟨hb, hne, hbound, _⟩ := ruleBuild_ok hok
    have hch : chainedFrom 0 r.buckets = true := by
      rw [hb]; exact chainedFrom_mkBuckets _ _
    have hend : endBound 0 r.buckets = 100 := by
      rw [hb, endBound_mkBuckets, hbound]
    obtain ⟨bk, hfind⟩ := find?_of_chained r.buckets 0 (hash % 100) hch (Nat.zero_le _)
      (by rw [hend]; exact Nat.mod_lt _ (by norm_num))
    have hpred := List.find?_some hfind
    simp only [inBucket, Bool.and_eq_true, decide_eq_true_eq] at hpred
    refine ⟨bk, List.mem_of_find?_eq_some hfind, hpred.1, hpred.2, ?_⟩
    simp [Rule.get_variant, hfind]
  · exact ⟨rfl, by decide, by decide, by decide, by decide⟩

/-- Witness for C2: the theorem instantiated on the 60/40 rule at hash 7. -/
theorem c2_witness :
    (∃ bk, bk ∈ ruleW.buckets ∧ bk.lower_bound ≤ 7 % 100 ∧ 7 % 100 < bk.upper_bound
        ∧ ruleW.get_variant 7 = some bk.variant)
  ∧ (RuleBuilder.build dummyCompile rbAB = .ok ruleAB
      ∧ (∀ h2, h2 < 50 → ruleAB.get_variant h2 = some "a")
      ∧ (∀ h2, h2 < 100 → 50 ≤ h2 → ruleAB.get_variant h2 = some "b")
      ∧ ruleAB.get_variant 100 = ruleAB.get_variant 0
      ∧ ruleAB.get_variant 100 = some "a") :=
  c2_get_variant_total dummyCompile rbW ruleW rfl 7

/-- C10: a variant that appears only with percentage 0 in the pair list of a
successfully built rule is never returned by get_variant: its buckets are
empty intervals. -/
theorem c10_zero_pct_unreachable (c : Compile) (rb : RuleBuilder) (r : Rule) (v : String)
    (hok : RuleBuilder.build c rb = .ok r)
    (hz : ∀ pr ∈ rb.percentages, pr.1 = v → pr.2 = 0) :
    ∀ hash : Nat, r.get_variant hash ≠ some v := by
  intro hash hgv
  obtain ⟨hb, _, _, _⟩ := ruleBuild_ok hok
  simp only [Rule.get_variant] at hgv
  cases hfind : r.buckets.find? (inBucket (hash % 100)) with
  | none => rw [hfind] at hgv; simp at hgv
  | some bk =>
    rw [hfind] at hgv
    simp only [Option.map_some', Option.some.injEq] at hgv
    have hpred := List.find?_some hfind
    simp only [inBucket, Bool.and_eq_true, decide_eq_true_eq] at hpred
    have hmem := List.mem_of_find?_eq_some hfind
    rw [hb] at hmem
    obtain ⟨hlb, pr, hprmem, hprv, hub⟩ := mkBuckets_mem rb.percentages 0 (by decide) bk hmem
    have hp0 : pr.2 = 0 := hz pr hprmem (by rw [hprv, hgv])
    rw [hp0, Nat.add_zero, Nat.mod_eq_of_lt hlb] at hub
    omega

/-- Witness for C10: variant a with percentage 0 is never returned at hash 7. -/
theorem c10_witness : ruleZ.get_variant 7 ≠ some "a" :=
  c10_zero_pct_unreachable dummyCompile rbZ ruleZ "a" rfl (by decide) 7

/-- C4: hash::calculate is the 32-bit Murmur3 hash (seed 0) of the byte
concatenation feature ++ user_key with no separator; it is a pure function of
that concatenation, so byte-equal concatenations collide, in particular
("ab","c") and ("a","bc"). -/
theorem c4_hash_concat :
    (∀ f u : String, calculate f u = murmur3_32 (utf8Bytes (f ++ u)) 0)
  ∧ (∀ f u f2 u2 : String, f ++ u = f2 ++ u2 → calculate f u = calculate f2 u2)
  ∧ calculate "ab" "c" = calculate "a" "bc" := by
  have hgen : ∀ f u f2 u2 : String, f ++ u = f2 ++ u2 → calculate f u = calculate f2 u2 := by
    intro f u f2 u2 h
    simp only [calculate, h]
  exact ⟨fun f u => rfl, hgen, hgen "ab" "c" "a" "bc" rfl⟩

/-- Witness for C4: the collision law instantiated on another pair. -/
theorem c4_witness : calculate "xy" "z" = calculate "x" "yz" :=
  c4_hash_concat.2.1 "xy" "z" "x" "yz" rfl

/-- C5: a rule with no compiled expression is always applicable; with one,
is_applicable is Ok true exactly when the expression evaluates to the boolean
true value, Ok false for any other result value, and a runtime evaluation
failure yields a Targeting error. -/
theorem c5_is_applicable (r : Rule) (env : Environment) :
    (r.program = none → r.is_applicable env = .ok true)
  ∧ (∀ p, r.program = some p →
      (∀ e, p env = .error e → r.is_applicable env = .error (.Targeting e))
      ∧ (∀ v, p env = .ok v →
          (v = .bool true → r.is_applicable env = .ok true)
          ∧ (v ≠ .bool true → r.is_applicable env = .ok false))) := by
  refine ⟨fun h => by simp [Rule.is_applicable, h], fun p hp => ⟨?_, ?_⟩⟩
  · intro e he
    simp [Rule.is_applicable, hp, he]
  · intro v hv
    constructor
    · intro hb
      simp [Rule.is_applicable, hp, hv, hb]
    · intro hb
      simp only [Rule.is_applicable, hp, hv]
      have hne : (v == MexlValue.bool true) = false := by
        cases hveq : v == MexlValue.bool true
        · rfl
        · exact absurd (eq_of_beq hveq) hb
      rw [hne]

/-- Witness for C5: a program returning the non-boolean value 1 makes the
rule inapplicable without error. -/
theorem c5_witness : ruleP.is_applicable ([] : Environment) = .ok false :=
  (((c5_is_applicable ruleP ([] : Environment)).2 progOne rfl).2 (.int 1) rfl).2 (by decide)

theorem undefinedInBuckets_none {vars : List (String × Value)} {bs : List Bucket}
    (h : undefinedInBuckets vars bs = none) :
    ∀ bk ∈ bs, (lookupKey vars bk.variant).isSome := by
  induction bs with
  | nil => intro bk hbk; simp at hbk
  | cons b rest ih =>
    simp only [undefinedInBuckets] at h
    by_cases hc : (lookupKey vars b.variant).isSome
    · rw [if_pos hc] at h
      intro bk hbk
      rcases List.mem_cons.mp hbk with rfl | hbk'
      · exact hc
      · exact ih h bk hbk'
    · rw [if_neg hc] at h
      exact absurd h (by simp)

theorem undefinedIn_none {vars : List (String × Value)} {rules : List Rule}
    (h : undefinedIn vars rules = none) :
    ∀ r ∈ rules, ∀ bk ∈ r.buckets, (lookupKey vars bk.variant).isSome := by
  induction rules with
  | nil => intro r hr; simp at hr
  | cons r0 rest ih =>
    simp only [undefinedIn] at h
    cases hb : undefinedInBuckets vars r0.buckets with
    | some v =>
      simp only [hb] at h
      exact absurd h (by simp)
    | none =>
      simp only [hb] at h
      intro r hr
      rcases List.mem_cons.mp hr with rfl | hr'
      · exact undefinedInBuckets_none hb
      · exact ih h r hr'

theorem featureBuild_ok {fb : FeatureBuilder} {F : Feature}
    (h : fb.build = .ok F) :
    fb.variants.all (fun kv => kv.2.has_type fb.value_type) = true
    ∧ ∃ dv dval dr nm,
      fb.default_variant = some dv ∧ lookupKey fb.variants dv = some dval
      ∧ fb.default_rule = some dr ∧ dr.program = none
      ∧ undefinedIn fb.variants (fb.rules ++ [dr]) = none
      ∧ fb.name = some nm
      ∧ F = { name := nm, enabled := fb.enabled, variants := fb.variants,
              default_variant := dv, default_value := dval,
              rules := fb.rules ++ [dr] } := by
  simp only [FeatureBuilder.build] at h
  split at h
  case isFalse => simp at h
  case isTrue hall =>
  split at h
  case h_1 => simp at h
  case h_2 dv hdv =>
  split at h
  case h_1 => simp at h
  case h_2 dval hlk =>
  split at h
  case h_1 => simp at h
  case h_2 dr hdr =>
  split at h
  case isTrue => simp at h
  case isFalse hprog =>
  split at h
  case h_1 v hud => simp at h
  case h_2 hud =>
  split at h
  case h_1 => simp at h
  case h_2 nm hnm =>
  rw [Except.ok.injEq] at h
  exact ⟨hall, dv, dval, dr, nm, hdv, hlk, hdr,
    Option.not_isSome_iff_eq_none.mp hprog, hud, hnm, h.symm⟩

/-- C6: FeatureBuilder::build fails with a Configuration error exactly when
one of the validation checks fails (variant value type mismatch, missing or
dangling default variant, missing default rule or default rule with an
expression, rule referencing an undefined variant, missing name); on success
the default rule is appended after the audience rules, in declaration
order. -/
theorem c6_feature_build (fb : FeatureBuilder) :
    (featureOk fb = false → ∃ msg, fb.build = .error (.Configuration msg))
  ∧ (∀ F, fb.build = .ok F → featureOk fb = true
      ∧ ∃ dr, fb.default_rule = some dr ∧ F.rules = fb.rules ++ [dr]) := by
  constructor
  · intro hno
    by_cases hall : fb.variants.all (fun kv => kv.2.has_type fb.value_type)
    · cases hdv : fb.default_variant with
      | none => exact ⟨"default variant is required", by simp [FeatureBuilder.build, hall, hdv]⟩
      | some dv =>
        cases hlk : lookupKey fb.variants dv with
        | none =>
          exact ⟨"default variant does not exist: " ++ dv,
            by simp [FeatureBuilder.build, hall, hdv, hlk]⟩
        | some dval =>
          cases hdr : fb.default_rule with
          | none =>
            exact ⟨"default rule is required",
              by simp [FeatureBuilder.build, hall, hdv, hlk, hdr]⟩
          | some dr =>
            by_cases hprog : dr.program.isSome
            · exact ⟨"default rule must not have an expression",
                by simp [FeatureBuilder.build, hall, hdv, hlk, hdr, hprog]⟩
            · cases hud : undefinedIn fb.variants (fb.rules ++ [dr]) with
              | some v =>
                exact ⟨"rule uses undefined variant: " ++ v,
                  by simp [FeatureBuilder.build, hall, hdv, hlk, hdr, hprog, hud]⟩
              | none =>
                cases hnm : fb.name with
                | none =>
                  exact ⟨"feature name is required", by
                    simp [FeatureBuilder.build, hall, hdv, hlk, hdr, hprog, hud, hnm]⟩
                | some nm =>
                  exfalso
                  simp [featureOk, hall, hdv, hlk, hdr, hprog, hud, hnm] at hno
    · exact ⟨"all variants must have type: " ++ fb.value_type.display,
        by simp [FeatureBuilder.build, hall]⟩
  · intro F hok
    obtain ⟨hall, dv, dval, dr, nm, hdv, hlk, hdr, hprog, hud, hnm, hF⟩ := featureBuild_ok hok
    constructor
    · simp [featureOk, hall, hdv, hlk, hdr, hprog, hud, hnm]
    · exact ⟨dr, hdr, by rw [hF]⟩

/-- Witness for C6: the valid builder fbGood builds featGood with the default
rule appended last. -/
theorem c6_witness :
    featureOk fbGood = true
    ∧ ∃ dr, fbGood.default_rule = some dr ∧ featGood.rules = fbGood.rules ++ [dr] :=
  (c6_feature_build fbGood).2 featGood rfl

theorem is_applicable_error {r : Rule} {env : Environment} {e : FetaError}
    (h : r.is_applicable env = .error e) : ∃ s, e = .Targeting s := by
  simp only [Rule.is_applicable] at h
  cases hp : r.program with
  | none =>
    simp only [hp] at h
    exact absurd h (by simp)
  | some p =>
    simp only [hp] at h
    cases hr : p env with
    | error s =>
      simp only [hr, Except.error.injEq] at h
      exact ⟨s, h.symm⟩
    | ok v =>
      simp only [hr] at h
      exact absurd h (by simp)

theorem ruleBuilt_covers {r : Rule} (hr : RuleBuilt r) (hash : Nat) :
    ∃ bk, bk ∈ r.buckets ∧ r.get_variant hash = some bk.variant := by
  obtain ⟨c, rb, hok⟩ := hr
  obtain ⟨hb, hne, hbound, _⟩ := ruleBuild_ok hok
  have hch : chainedFrom 0 r.buckets = true := by
    rw [hb]; exact chainedFrom_mkBuckets _ _
  have hend : endBound 0 r.buckets = 100 := by
    rw [hb, endBound_mkBuckets, hbound]
  obtain ⟨bk, hfind⟩ := find?_of_chained r.buckets 0 (hash % 100) hch (Nat.zero_le _)
    (by rw [hend]; exact Nat.mod_lt _ (by norm_num))
  refine ⟨bk, List.mem_of_find?_eq_some hfind, ?_⟩
  simp [Rule.get_variant, hfind]

theorem ruleBuilt_reason {r : Rule} (hr : RuleBuilt r) : r.reason ≠ .unknown := by
  obtain ⟨c, rb, hok⟩ := hr
  exact (ruleBuild_ok hok).2.2.2

theorem decideRules_ok (f : Feature) (env : Environment) (hash : Nat)
    (b : DecisionBuilder) (rules : List Rule)
    (hgood : ∀ r ∈ rules,
      RuleBuilt r ∧ ∀ bk ∈ r.buckets, (lookupKey f.variants bk.variant).isSome)
    (hlast : ∃ rl, rules.getLast? = some rl ∧ rl.program = none)
    (hberr : b.error = none) :
    ∃ d, decideRules f env hash b rules = some d ∧ d.reason ≠ .unknown
      ∧ ∀ msg, d.error ≠ some (.Configuration msg) := by
  induction rules with
  | nil =>
    obtain ⟨rl, hrl, _⟩ := hlast
    simp at hrl
  | cons r rest ih =>
    obtain ⟨hr, hlk⟩ := hgood r (List.mem_cons_self _ _)
    cases ha : r.is_applicable env with
    | error e =>
      obtain ⟨s, rfl⟩ := is_applicable_error ha
      refine ⟨_, by simp only [decideRules, ha]; rfl, ?_, ?_⟩
      · simp [DecisionBuilder.errorOut, DecisionBuilder.out]
      · intro msg
        simp [DecisionBuilder.errorOut, DecisionBuilder.out]
    | ok applicable =>
      cases applicable with
      | true =>
        obtain ⟨bk, hbkmem, hgv⟩ := ruleBuilt_covers hr hash
        have hval := hlk bk hbkmem
        rw [Option.isSome_iff_exists] at hval
        obtain ⟨v, hvv⟩ := hval
        have hreason := ruleBuilt_reason hr
        cases hau : r.audience with
        | none =>
          refine ⟨_, by
            simp only [decideRules, ha, hgv, hau, Feature.variant_value, hvv]; rfl, ?_, ?_⟩
          · simpa [DecisionBuilder.success, DecisionBuilder.out] using hreason
          · intro msg
            simp [DecisionBuilder.success, DecisionBuilder.out, hberr]
        | some a =>
          refine ⟨_, by
            simp only [decideRules, ha, hgv, hau, Feature.variant_value, hvv]; rfl, ?_, ?_⟩
          · simpa [DecisionBuilder.success, DecisionBuilder.out] using hreason
          · intro msg
            simp [DecisionBuilder.success, DecisionBuilder.out, hberr]
      | false =>
        cases rest with
        | nil =>
          obtain ⟨rl, hrl, hrlp⟩ := hlast
          simp only [List.getLast?_singleton, Option.some.injEq] at hrl
          rw [← hrl] at hrlp
          have hap : r.is_applicable env = .ok true := by
            simp [Rule.is_applicable, hrlp]
          rw [ha] at hap
          simp at hap
        | cons r2 rest2 =>
          obtain ⟨rl, hrl, hrlp⟩ := hlast
          rw [List.getLast?_cons_cons] at hrl
          obtain ⟨d, hd, h2, h3⟩ := ih
            (fun r' hr' => hgood r' (List.mem_cons_of_mem _ hr')) ⟨rl, hrl, hrlp⟩
          exact ⟨d, by simp only [decideRules, ha]; exact hd, h2, h3⟩

/-- C3: a feature built by FeatureBuilder::build from builder-produced rules
always decides: no panic, the reason is never Unknown, and the defensive
Configuration-error paths in decide (including "no applicable rules defined")
are unreachable. -/
theorem c3_decide_total (fb : FeatureBuilder) (F : Feature)
    (hb : fb.build = .ok F)
    (hrules : ∀ r ∈ fb.rules, RuleBuilt r)
    (hdr : ∀ r, fb.default_rule = some r → RuleBuilt r)
    (ctx : Context) :
    ∃ d, F.decide ctx = some d ∧ d.reason ≠ .unknown
      ∧ ∀ msg, d.error ≠ some (.Configuration msg) := by
  obtain ⟨hall, dv, dval, dr, nm, hdv, hlk, hdrule, hprog, hud, hnm, hF⟩ :=
    featureBuild_ok hb
  subst hF
  simp only [Feature.decide]
  cases he : fb.enabled with
  | false =>
    refine ⟨_, by simp; rfl, ?_, ?_⟩
    · simp [DecisionBuilder.disabled, DecisionBuilder.out]
    · intro msg
      simp [DecisionBuilder.disabled, DecisionBuilder.out, DecisionBuilder.new]
  | true =>
    simp only [Bool.not_true, Bool.false_eq_true, if_false]
    apply decideRules_ok
    · intro r hrmem
      constructor
      · rcases List.mem_append.mp hrmem with h1 | h2
        · exact hrules r h1
        · rw [List.mem_singleton] at h2
          subst h2
          exact hdr r hdrule
      · intro bk hbk
        exact undefinedIn_none hud r hrmem bk hbk
    · exact ⟨dr, List.getLast?_concat _, hprog⟩
    · rfl

/-- Witness for C3: the feature built from fbGood decides for user g. -/
theorem c3_witness :
    ∃ d, featGood.decide (Context.new "g") = some d ∧ d.reason ≠ .unknown
      ∧ ∀ msg, d.error ≠ some (.Configuration msg) :=
  c3_decide_total fbGood featGood rfl
    (fun r hr => absurd hr (List.not_mem_nil r))
    (fun r hr => by
      rw [show fbGood.default_rule = some ruleA from rfl, Option.some.injEq] at hr
      exact hr ▸ ⟨dummyCompile, rbA, rfl⟩)
    (Context.new "g")

/-- C7: a disabled feature decides immediately to reason Disabled with the
default variant and value and the hash set; the result is unchanged by the
context's attributes and by the rule list, so no rule matching or expression
evaluation takes place. -/
theorem c7_disabled_short_circuit (f : Feature) (ctx : Context)
    (hdis : f.enabled = false) :
    f.decide ctx = some { hash := calculate f.name ctx.user_key,
                          variant := f.default_variant, reason := .disabled,
                          value := f.default_value, audience := none, error := none }
  ∧ ∀ attrs rules2,
      Feature.decide { f with rules := rules2 } { ctx with attributes := attrs }
        = f.decide ctx := by
  constructor
  · simp [Feature.decide, hdis, DecisionBuilder.disabled, DecisionBuilder.out,
      DecisionBuilder.new]
  · intro attrs rules2
    simp [Feature.decide, hdis]

/-- Witness for C7: the disabled feature featDis decides for user u. -/
theorem c7_witness :
    featDis.decide (Context.new "u")
        = some { hash := calculate featDis.name (Context.new "u").user_key,
                 variant := featDis.default_variant, reason := .disabled,
                 value := featDis.default_value, audience := none, error := none }
    ∧ ∀ attrs rules2,
        Feature.decide { featDis with rules := rules2 }
            { Context.new "u" with attributes := attrs }
          = featDis.decide (Context.new "u") :=
  c7_disabled_short_circuit featDis (Context.new "u") rfl

theorem decideRules_skip (f : Feature) (env : Environment) (hash : Nat)
    (b : DecisionBuilder) (rs1 rest : List Rule)
    (hprev : ∀ r' ∈ rs1, r'.is_applicable env = .ok false) :
    decideRules f env hash b (rs1 ++ rest) = decideRules f env hash b rest := by
  induction rs1 with
  | nil => rfl
  | cons r0 rs ih =>
    have h0 := hprev r0 (List.mem_cons_self _ _)
    simp only [List.cons_append, decideRules, h0]
    exact ih (fun r' hr' => hprev r' (List.mem_cons_of_mem _ hr'))

/-- C8: on an enabled feature, the first rule whose is_applicable returns a
Targeting error (after a prefix of inapplicable rules) aborts evaluation:
the decision has reason Error, the error populated, the hash set, the default
variant and value, and the rules after it are never consulted. -/
theorem c8_targeting_error_aborts (f : Feature) (ctx : Context)
    (rs1 : List Rule) (r : Rule) (rs2 : List Rule) (msg : String)
    (hen : f.enabled = true)
    (hsplit : f.rules = rs1 ++ r :: rs2)
    (hprev : ∀ r' ∈ rs1, r'.is_applicable (envOf ctx) = .ok false)
    (herr : r.is_applicable (envOf ctx) = .error (.Targeting msg)) :
    f.decide ctx = some { hash := calculate f.name ctx.user_key,
                          variant := f.default_variant, reason := .error,
                          value := f.default_value, audience := none,
                          error := some (.Targeting msg) } := by
  simp only [Feature.decide, hen, Bool.not_true, Bool.false_eq_true, if_false]
  rw [hsplit, decideRules_skip _ _ _ _ _ _ hprev]
  simp only [decideRules, herr]
  simp [DecisionBuilder.errorOut, DecisionBuilder.out, DecisionBuilder.new]

/-- Witness for C8: the feature featBoom whose single rule fails at runtime
returns an error decision for user u. -/
theorem c8_witness :
    featBoom.decide (Context.new "u")
      = some { hash := calculate featBoom.name (Context.new "u").user_key,
               variant := featBoom.default_variant, reason := .error,
               value := featBoom.default_value, audience := none,
               error := some (.Targeting "boom") } :=
  c8_targeting_error_aborts featBoom (Context.new "u") [] ruleBoom [] "boom"
    rfl rfl (fun r' hr' => absurd hr' (List.not_mem_nil r')) rfl

/-- C9 counterexample: on the empty registry, the empty feature name is not
registered and the empty user key makes the computed hash exactly 0, so the
claimed non-zero hash fails. -/
theorem c9_counterexample :
    lookupKey emptyFeatures.features "" = none
    ∧ (Features.decide emptyFeatures "" (Context.new "")).map (fun d => d.hash)
        = some 0 := by
  exact ⟨rfl, rfl⟩

/-- C9 (amended): deciding an unregistered feature name returns a Decision
with reason Error, a populated Request error, value Null, and the hash
computed from the requested feature name and the context's user key (the
hash is whatever Murmur3 yields: it is not guaranteed non-zero). -/
theorem c9_missing_feature (fs : Features) (ctx : Context) (fname : String)
    (hmiss : lookupKey fs.features fname = none) :
    Features.decide fs fname ctx
      = some { hash := calculate fname ctx.user_key, variant := "",
               reason := .error, value := .null, audience := none,
               error := some (.Request ("invalid feature: " ++ fname)) } := by
  simp [Features.decide, hmiss, DecisionBuilder.errorOut, DecisionBuilder.out,
    DecisionBuilder.new]

/-- Witness for C9: the amended theorem instantiated on the empty registry. -/
theorem c9_witness :
    Features.decide emptyFeatures "x" (Context.new "g")
      = some { hash := calculate "x" (Context.new "g").user_key, variant := "",
               reason := .error, value := .null, audience := none,
               error := some (.Request ("invalid feature: " ++ "x")) } :=
  c9_missing_feature emptyFeatures (Context.new "g") "x" rfl
